import Mathlib

/-!
A shallow embedding of `src/reddit_fetcher.py` (grepr).

This file models the feed-harvesting subsystem of the grepr repository:
transport selection between an authenticated (PRAW) client and the public
`.json` endpoint, pagination with a continuation cursor, inline score
filtering, top-comment enrichment, and the two harvest entry points
`fetch_all_posts` and `fetch_new_posts`.

Modelling conventions:
* Python dict/JSON values reaching the comment endpoint are modelled by the
  `Json` inductive together with partial Python operations (`pyLen`,
  subscription, `dict.get`, slicing) returning `Except PyErr _`, so that the
  exact exception behaviour of `fetch_top_comment_public` is captured
  (only `requests.RequestException` is caught by the source).
* Page responses of the post-listing endpoint are modelled structurally
  (`PageResp`): a network-level failure (`requests.RequestException` raised
  by `requests.get` / `raise_for_status` / `.json()`) or a well-typed page
  body whose optional keys mirror the `.get(...)` defaults of the source.
* Numeric fields (`score`, `created_utc`, `num_comments`, the upvote
  fraction) are modelled as `Int`; no claim depends on float behaviour.
  The source field `upvote_ratio` is named `upvoteFrac` here.
* The module-global `_reddit_instance` is explicit state of type
  `Option Nat` (a client is an opaque tag); the outcome of one
  construction + authentication attempt (`praw.Reddit(...)` followed by
  `user.me()`) is a `ClientAttempt`.
* `time.sleep` and logging are omitted: they have no observable effect on
  the returned data.
-/

/-- Python string slicing `s[:n]` (by code points). -/
def pyTake (n : Nat) (s : String) : String := String.mk (s.data.take n)

/-- Zero-pad a natural number to two digits (strftime `%H` etc.). -/
def pad2 (n : Nat) : String := if n < 10 then "0" ++ toString n else toString n

/-- Zero-pad a natural number to four digits (strftime `%Y`). -/
def pad4 (n : Nat) : String :=
  if n < 10 then "000" ++ toString n
  else if n < 100 then "00" ++ toString n
  else if n < 1000 then "0" ++ toString n
  else toString n

/-- Civil date from days since the Unix epoch (standard Gregorian
conversion, as performed by `datetime.utcfromtimestamp`). -/
def civilFromDays (z0 : Int) : Int × Nat × Nat :=
  let z := z0 + 719468
  let era := Int.fdiv z 146097
  let doe := (z - era * 146097).toNat
  let yoe := (doe - doe / 1460 + doe / 36524 - doe / 146096) / 365
  let y := era * 400 + yoe
  let doy := doe - (365 * yoe + yoe / 4 - yoe / 100)
  let mp := (5 * doy + 2) / 153
  let d := doy - (153 * mp + 2) / 5 + 1
  let m := if mp < 10 then mp + 3 else mp - 9
  (if m ≤ 2 then y + 1 else y, m, d)

/-- Model of `datetime.utcfromtimestamp(t).strftime("%Y-%m-%d %H:%M:%S")`. -/
def formatUtc (t : Int) : String :=
  let days := Int.fdiv t 86400
  let secs := (t - days * 86400).toNat
  let c := civilFromDays days
  pad4 c.1.toNat ++ "-" ++ pad2 c.2.1 ++ "-" ++ pad2 c.2.2 ++ " " ++
    pad2 (secs / 3600) ++ ":" ++ pad2 (secs % 3600 / 60) ++ ":" ++ pad2 (secs % 60)

/-- Python `str(x)` on an optional string: `None` renders as `"None"`
inside an f-string (`f"https://reddit.com{post_data.get('permalink')}"`). -/
def pyStr : Option String → String
  | none => "None"
  | some s => s

/-- Exceptions that the body of `fetch_top_comment_public` can raise and
that are NOT caught by its `except requests.RequestException` clause. -/
inductive PyErr where
  | typeError
  | keyError
  | indexError
  | attrError
  deriving DecidableEq

/-- A JSON value as decoded by `response.json()`. -/
inductive Json where
  | null
  | bool (b : Bool)
  | num (n : Int)
  | str (s : String)
  | arr (xs : List Json)
  | obj (kvs : List (String × Json))

/-- Python `len(x)`: defined for sequences and mappings, `TypeError`
otherwise. -/
def pyLen : Json → Except PyErr Nat
  | .str s => .ok s.length
  | .arr xs => .ok xs.length
  | .obj kvs => .ok kvs.length
  | _ => .error .typeError

/-- Python truthiness of a JSON value. -/
def pyTruthy : Json → Bool
  | .null => false
  | .bool b => b
  | .num n => n != 0
  | .str s => s != ""
  | .arr xs => !xs.isEmpty
  | .obj kvs => !kvs.isEmpty

/-- Key lookup in the association list of a JSON object. -/
def jsonLookup (kvs : List (String × Json)) (k : String) : Option Json :=
  match kvs.find? (fun kv => kv.1 == k) with
  | some kv => some kv.2
  | none => none

/-- Python `x.get(k, dflt)`: only dicts have `.get`; anything else raises
`AttributeError`. A present key returns its value (possibly `null`),
an absent key returns the default. -/
def pyGet (j : Json) (k : String) (dflt : Json) : Except PyErr Json :=
  match j with
  | .obj kvs =>
    match jsonLookup kvs k with
    | some v => .ok v
    | none => .ok dflt
  | _ => .error .attrError

/-- Python `x[1]` as used on the decoded comment response: list indexing,
string indexing, `KeyError` on a dict (its keys are strings, the key `1`
is an int), `TypeError` otherwise. -/
def pySubscript1 : Json → Except PyErr Json
  | .arr xs =>
    match xs.drop 1 with
    | y :: _ => .ok y
    | [] => .error .indexError
  | .str s =>
    match s.data.drop 1 with
    | c :: _ => .ok (.str (String.mk [c]))
    | [] => .error .indexError
  | .obj _ => .error .keyError
  | _ => .error .typeError

/-- Python `x[0]`: list/str indexing, `KeyError` on a dict, `TypeError`
otherwise. -/
def pyIndex0 : Json → Except PyErr Json
  | .arr (x :: _) => .ok x
  | .arr [] => .error .indexError
  | .str s =>
    match s.data with
    | c :: _ => .ok (.str (String.mk [c]))
    | [] => .error .indexError
  | .obj _ => .error .keyError
  | _ => .error .typeError

/-- Python `x[:n]` on a JSON value: slicing is defined for sequences
(strings and lists), `TypeError` otherwise. -/
def pySlice (j : Json) (n : Nat) : Except PyErr Json :=
  match j with
  | .str s => .ok (.str (pyTake n s))
  | .arr xs => .ok (.arr (xs.take n))
  | _ => .error .typeError

/-- Python `x == "t1"` (never raises). -/
def jsonEqStr (j : Json) (s : String) : Bool :=
  match j with
  | .str t => t == s
  | _ => false

/-! ## Configuration constants (`src/config.py`) -/

/-- Constant `MIN_SCORE = 10` in `config.py`. -/
def MIN_SCORE : Int := 10

/-- Constant `POSTS_PER_REQUEST = 100` in `config.py`. -/
def POSTS_PER_REQUEST : Nat := 100

/-- Constant `TIME_FILTER = "all"` in `config.py`. -/
def TIME_FILTER : String := "all"

/-! ## Records -/

/-- The `data` dict of one item wrapper in a page of the public
post-listing endpoint.  An `Option` field is `none` when the key is
absent (every `.get` in the source supplies the default shown in
`fetch_subreddit_posts_public`).  Present keys are assumed to hold the
expected type; shape errors of the comment endpoint are modelled
separately over `Json`. -/
structure RawItem where
  id : Option String := none
  title : Option String := none
  selftext : Option String := none
  score : Option Int := none
  num_comments : Option Int := none
  created_utc : Option Int := none
  permalink : Option String := none
  author : Option String := none
  upvoteFrac : Option Int := none
  deriving DecidableEq

/-- A praw submission as observed by attribute access in
`fetch_subreddit_posts_praw` (`post.selftext` and `post.author` may be
`None`; the remaining attributes are always present). -/
structure RawPraw where
  id : String
  title : String
  selftext : Option String := none
  score : Int
  num_comments : Int := 0
  created_utc : Int := 0
  permalink : String := ""
  author : Option String := none
  upvoteFrac : Int := 0
  deriving DecidableEq

/-- A praw comment as observed in `fetch_top_comment_praw`. -/
structure RawComment where
  id : String
  body : Option String := none
  score : Int := 0
  author : Option String := none
  deriving DecidableEq

/-- The comment dict built by `fetch_top_comment_praw` /
`fetch_top_comment_public` (keys `comment_id`, `comment_body`,
`comment_score`, `comment_author`).  The public path stores raw JSON
values obtained with `.get`, so the fields are `Json` (`.get("id")` and
`.get("author")` may give `null`). -/
structure Comment where
  comment_id : Json
  comment_body : Json
  comment_score : Json
  comment_author : Json

/-- The post dict yielded by both transports.  The `comment` field is
`none` until `post.update(top_comment)` merges the four `comment_*` keys
in (they are disjoint from the post keys). -/
structure Post where
  id : Option String
  subreddit : String
  title : Option String
  selftext : String
  score : Int
  num_comments : Int
  created_utc : Int
  created_at : Option String
  url : String
  author : Option String
  upvoteFrac : Int
  comment : Option Comment := none

/-- One response of the public post-listing endpoint: a network-level
failure (`requests.RequestException`, caught at lines 145-147 of
`reddit_fetcher.py`) or a page body.  `children` is
`data.get("data", {}).get("children", [])`; `after` is
`data.get("data", {}).get("after")` (`none` = key absent or `null`). -/
inductive PageResp where
  | netErr
  | page (children : List RawItem) (after : Option String)
  deriving DecidableEq

/-- One event of iterating `sub.top(time_filter=..., limit=...)` in the
authenticated transport: the next submission, or an exception raised by
the praw client (caught at line 87 of `reddit_fetcher.py`). -/
inductive PrawEvent where
  | item (d : RawPraw)
  | raiseExc
  deriving DecidableEq

/-- Outcome of one authenticated top-comment request
(`reddit.submission(...)` through `submission.comments`): the comment
forest, or an exception (caught at lines 114-115). -/
inductive PrawCommentOutcome where
  | ok (comments : List RawComment)
  | raiseExc

/-- Outcome of one construction + authentication attempt in
`get_reddit_client`: `praw.Reddit(...)` itself raises (the global is
never assigned), or the constructor succeeds and `user.me()` raises
(the global has already been assigned the client `c`), or both succeed. -/
inductive ClientAttempt where
  | constructFails
  | authFails (c : Nat)
  | ok (c : Nat)
  deriving DecidableEq

/-- The environment of one harvesting run: configuration, and the
deterministic behaviour of both remote endpoints.  The response
functions are indexed by the request parameters that reach the wire
(community and time filter for listings; post id and community for
comments). -/
structure World where
  enabled : Bool
  prawAvail : Bool
  attempt : ClientAttempt
  minScore : Int
  subs : List String
  prawPosts : String → String → List PrawEvent
  pubPages : String → String → List PageResp
  prawComments : Option String → String → PrawCommentOutcome
  pubComments : Option String → String → Except Unit Json

/-! ## `get_reddit_client` (reddit_fetcher.py lines 26-47)

The module global `_reddit_instance` is threaded explicitly; the result is
`(returned client, new value of the global)`.  Note the exact source
order: `_reddit_instance = praw.Reddit(...)` assigns the global BEFORE
`user.me()` is called, and the `except` clause returns `None` without
resetting the global. -/

/-- One call of `get_reddit_client`, given the outcome `att` that a
construction + authentication attempt would have on this call. -/
def getRedditClientCore (enabled prawAvail : Bool) (att : ClientAttempt)
    (st : Option Nat) : Option Nat × Option Nat :=
  if !(enabled && prawAvail) then (none, st)
  else
    match st with
    | some c => (some c, some c)
    | none =>
      match att with
      | .constructFails => (none, none)
      | .authFails c => (none, some c)
      | .ok c => (some c, some c)

/-- Model of `get_reddit_client()` in the run environment `w`. -/
def get_reddit_client (w : World) (st : Option Nat) : Option Nat × Option Nat :=
  getRedditClientCore w.enabled w.prawAvail w.attempt st

/-! ## Public transport (reddit_fetcher.py lines 122-211) -/

/-- Post construction in the public path (lines 154-173): each field is
the corresponding `.get` with the source's default. -/
def mkPublicPost (sub : String) (d : RawItem) : Post :=
  let createdUtc := d.created_utc.getD 0
  { id := d.id
    subreddit := sub
    title := d.title
    selftext := pyTake 2000 (d.selftext.getD "")
    score := d.score.getD 0
    num_comments := d.num_comments.getD 0
    created_utc := createdUtc
    created_at := if createdUtc != 0 then some (formatUtc createdUtc) else none
    url := "https://reddit.com" ++ pyStr d.permalink
    author := d.author
    upvoteFrac := d.upvoteFrac.getD 0
    comment := none }

/-- The inner `for post in posts:` loop of one page (lines 153-174):
yields the accepted posts in order and counts how often
`total_fetched += 1` ran. -/
def processPage (minScore : Int) (sub : String) : List RawItem → List Post × Nat
  | [] => ([], 0)
  | d :: rest =>
    let r := processPage minScore sub rest
    if minScore ≤ d.score.getD 0 then (mkPublicPost sub d :: r.1, r.2 + 1)
    else r

/-- Python truthiness of the continuation token `after`
(`if after: ...` / `if not after: break`): absent, `null` or the empty
string all count as no token. -/
def tokenTruthy : Option String → Bool
  | none => false
  | some s => s != ""

/-- The `while total_fetched < limit:` pagination loop (lines 132-180).
The response list models the outcomes of successive page requests: each
loop iteration issues one request and consumes one element.  Result:
(yielded posts, number of page requests issued). -/
def fetchPublicGo (minScore : Int) (sub : String) (limit : Nat) :
    Nat → List PageResp → List Post × Nat
  | _, [] => ([], 0)
  | total, r :: rest =>
    if limit ≤ total then ([], 0)
    else
      match r with
      | .netErr => ([], 1)
      | .page children after =>
        if children.isEmpty then ([], 1)
        else
          let pr := processPage minScore sub children
          if tokenTruthy after then
            let cont := fetchPublicGo minScore sub limit (total + pr.2) rest
            (pr.1 ++ cont.1, 1 + cont.2)
          else (pr.1, 1)

/-- Model of `fetch_subreddit_posts_public(subreddit, time_filter, limit)` run
against the page responses `resps` (the time filter only affects the
request parameters, hence which responses the server sends). -/
def fetch_subreddit_posts_public (minScore : Int) (sub : String)
    (resps : List PageResp) (limit : Nat) : List Post × Nat :=
  fetchPublicGo minScore sub limit 0 resps

/-- Model of `fetch_top_comment_public(post_id, subreddit)` (lines 185-211) on the
decoded response `resp` (`.error` = `requests.RequestException` raised by
`requests.get` / `raise_for_status` / `.json()`, which the source
catches and turns into `None`).  Any other exception raised while taking
the body apart escapes as `.error e : Except PyErr _` — the source's
`except` clause does not catch it. -/
def fetch_top_comment_public (resp : Except Unit Json) :
    Except PyErr (Option Comment) :=
  match resp with
  | .error _ => .ok none
  | .ok data =>
    match pyLen data with
    | .error e => .error e
    | .ok n =>
      if 1 < n then
        match pySubscript1 data with
        | .error e => .error e
        | .ok d1 =>
          match pyGet d1 "data" (Json.obj []) with
          | .error e => .error e
          | .ok inner =>
            match pyGet inner "children" (Json.arr []) with
            | .error e => .error e
            | .ok comments =>
              if pyTruthy comments then
                match pyIndex0 comments with
                | .error e => .error e
                | .ok c0 =>
                  match pyGet c0 "kind" Json.null with
                  | .error e => .error e
                  | .ok kind =>
                    if jsonEqStr kind "t1" then
                      match pyGet c0 "data" (Json.obj []) with
                      | .error e => .error e
                      | .ok cd =>
                        match pyGet cd "id" Json.null with
                        | .error e => .error e
                        | .ok idv =>
                          match pyGet cd "body" (Json.str "") with
                          | .error e => .error e
                          | .ok bodyRaw =>
                            match pySlice bodyRaw 1000 with
                            | .error e => .error e
                            | .ok bodyv =>
                              match pyGet cd "score" (Json.num 0) with
                              | .error e => .error e
                              | .ok scorev =>
                                match pyGet cd "author" Json.null with
                                | .error e => .error e
                                | .ok authorv =>
                                  .ok (some ⟨idv, bodyv, scorev, authorv⟩)
                    else .ok none
              else .ok none
      else .ok none

/-! ## Authenticated transport (reddit_fetcher.py lines 50-117) -/

/-- Post construction in the praw path (lines 70-82). -/
def mkPrawPost (sub : String) (d : RawPraw) : Post :=
  { id := some d.id
    subreddit := sub
    title := some d.title
    selftext := pyTake 2000 (d.selftext.getD "")
    score := d.score
    num_comments := d.num_comments
    created_utc := d.created_utc
    created_at := some (formatUtc d.created_utc)
    url := "https://reddit.com" ++ d.permalink
    author := some (d.author.getD "[deleted]")
    upvoteFrac := d.upvoteFrac
    comment := none }

/-- The `for post in sub.top(...)` loop with its `except` clause (lines
61-90): on an exception the whole public fetch of the same call
parameters is run and its yield appended after the posts already
yielded. -/
def prawGo (minScore : Int) (sub : String) (pubResps : List PageResp)
    (limit : Nat) : List PrawEvent → List Post
  | [] => []
  | .item d :: rest =>
    (if minScore ≤ d.score then [mkPrawPost sub d] else [])
      ++ prawGo minScore sub pubResps limit rest
  | .raiseExc :: _ => (fetch_subreddit_posts_public minScore sub pubResps limit).1

/-- Model of `fetch_subreddit_posts_praw(subreddit, time_filter, limit)`
(lines 50-90): obtain the client (possibly mutating the global), fall
back to the public fetch when it is `None`, otherwise iterate the praw
listing with public fallback on exception. -/
def fetch_subreddit_posts_praw (w : World) (st : Option Nat) (sub tf : String)
    (limit : Nat) : List Post × Option Nat :=
  let r := get_reddit_client w st
  match r.1 with
  | none => ((fetch_subreddit_posts_public w.minScore sub (w.pubPages sub tf) limit).1, r.2)
  | some _ => (prawGo w.minScore sub (w.pubPages sub tf) limit (w.prawPosts sub tf), r.2)

/-- Comment construction in the praw path (lines 108-113). -/
def mkPrawComment (c : RawComment) : Comment :=
  { comment_id := .str c.id
    comment_body := .str (pyTake 1000 (c.body.getD ""))
    comment_score := .num c.score
    comment_author := .str (c.author.getD "[deleted]") }

/-- Model of `fetch_top_comment_praw(post_id, subreddit)` (lines 93-117).  Note:
when the client exists but the authenticated request raises, the source
returns `None` — it does NOT delegate to the public transport. -/
def fetch_top_comment_praw (w : World) (st : Option Nat) (pid : Option String)
    (sub : String) : Except PyErr (Option Comment) × Option Nat :=
  let r := get_reddit_client w st
  match r.1 with
  | none => (fetch_top_comment_public (w.pubComments pid sub), r.2)
  | some _ =>
    match w.prawComments pid sub with
    | .raiseExc => (.ok none, r.2)
    | .ok [] => (.ok none, r.2)
    | .ok (c :: _) => (.ok (some (mkPrawComment c)), r.2)

/-! ## Dispatchers and orchestration (reddit_fetcher.py lines 216-292) -/

/-- Dispatcher `fetch_subreddit_posts` (lines 216-224). -/
def fetch_subreddit_posts (w : World) (st : Option Nat) (sub tf : String)
    (limit : Nat) : List Post × Option Nat :=
  if w.enabled && w.prawAvail then fetch_subreddit_posts_praw w st sub tf limit
  else ((fetch_subreddit_posts_public w.minScore sub (w.pubPages sub tf) limit).1, st)

/-- Dispatcher `fetch_top_comment` (lines 227-235). -/
def fetch_top_comment (w : World) (st : Option Nat) (pid : Option String)
    (sub : String) : Except PyErr (Option Comment) × Option Nat :=
  if w.enabled && w.prawAvail then fetch_top_comment_praw w st pid sub
  else (fetch_top_comment_public (w.pubComments pid sub), st)

/-- Model of `if top_comment: post.update(top_comment)` — merge the `comment_*`
keys into the post dict (they are disjoint from the post's own keys). -/
def enrich (p : Post) : Option Comment → Post
  | none => p
  | some c => { p with comment := some c }

/-- The per-post body of the `fetch_all_posts` loop (lines 258-265):
optional enrichment, then append. -/
def allLoop (w : World) (wc : Bool) (sub : String) :
    Option Nat → List Post → Except PyErr (List Post × Option Nat)
  | st, [] => .ok ([], st)
  | st, p :: rest =>
    if wc then
      match fetch_top_comment w st p.id sub with
      | (.error e, _) => .error e
      | (.ok c, st1) =>
        match allLoop w wc sub st1 rest with
        | .error e => .error e
        | .ok (ps, st2) => .ok (enrich p c :: ps, st2)
    else
      match allLoop w wc sub st rest with
      | .error e => .error e
      | .ok (ps, st2) => .ok (p :: ps, st2)

/-- The `for subreddit in SUBREDDITS:` loop of `fetch_all_posts`,
parameterised by the time filter the inner fetch passes on. -/
def subsLoop (w : World) (tf : String) (wc : Bool) (limit : Nat) :
    Option Nat → List String → Except PyErr (List Post × Option Nat)
  | st, [] => .ok ([], st)
  | st, sub :: rest =>
    let f := fetch_subreddit_posts w st sub tf limit
    match allLoop w wc sub f.2 f.1 with
    | .error e => .error e
    | .ok (enriched, st2) =>
      match subsLoop w tf wc limit st2 rest with
      | .error e => .error e
      | .ok (more, st3) => .ok (enriched ++ more, st3)

/-- Model of `fetch_all_posts(with_comments, limit_per_sub)` (lines 238-268);
`fetch_subreddit_posts` is called with the default time filter
`TIME_FILTER`.  A `.error` value is an exception escaping to the caller. -/
def fetch_all_posts (w : World) (wc : Bool) (limit : Nat) (st : Option Nat) :
    Except PyErr (List Post) :=
  match subsLoop w TIME_FILTER wc limit st w.subs with
  | .error e => .error e
  | .ok (l, _) => .ok l

/-- The per-post body of the `fetch_new_posts` loop (lines 282-289):
posts below the cutoff are skipped entirely (no enrichment, no append). -/
def newLoop (w : World) (wc : Bool) (sub : String) (cutoff : Int) :
    Option Nat → List Post → Except PyErr (List Post × Option Nat)
  | st, [] => .ok ([], st)
  | st, p :: rest =>
    if cutoff ≤ p.created_utc then
      if wc then
        match fetch_top_comment w st p.id sub with
        | (.error e, _) => .error e
        | (.ok c, st1) =>
          match newLoop w wc sub cutoff st1 rest with
          | .error e => .error e
          | .ok (ps, st2) => .ok (enrich p c :: ps, st2)
      else
        match newLoop w wc sub cutoff st rest with
        | .error e => .error e
        | .ok (ps, st2) => .ok (p :: ps, st2)
    else newLoop w wc sub cutoff st rest

/-- The `for subreddit in SUBREDDITS:` loop of `fetch_new_posts`; the
inner fetch uses `time_filter="day"` and `limit=100`. -/
def newSubsLoop (w : World) (wc : Bool) (cutoff : Int) :
    Option Nat → List String → Except PyErr (List Post × Option Nat)
  | st, [] => .ok ([], st)
  | st, sub :: rest =>
    let f := fetch_subreddit_posts w st sub "day" 100
    match newLoop w wc sub cutoff f.2 f.1 with
    | .error e => .error e
    | .ok (kept, st2) =>
      match newSubsLoop w wc cutoff st2 rest with
      | .error e => .error e
      | .ok (more, st3) => .ok (kept ++ more, st3)

/-- Model of `fetch_new_posts(since_hours, with_comments)` (lines 271-292); the
cutoff is `time.time() - since_hours * 3600` with `now` the value of
`time.time()`. -/
def fetch_new_posts (w : World) (now sinceHours : Int) (wc : Bool)
    (st : Option Nat) : Except PyErr (List Post) :=
  match newSubsLoop w wc (now - sinceHours * 3600) st w.subs with
  | .error e => .error e
  | .ok (l, _) => .ok l

/-- The posts drawn from the transports by a harvest run (community
order, then source ranking order), before any enrichment: the
`fetch_subreddit_posts` calls of the run concatenated, threading the
client state exactly as the run does. -/
def fetchedPosts (w : World) (tf : String) (limit : Nat) :
    Option Nat → List String → List Post × Option Nat
  | st, [] => ([], st)
  | st, sub :: rest =>
    let f := fetch_subreddit_posts w st sub tf limit
    let r := fetchedPosts w tf limit f.2 rest
    (f.1 ++ r.1, r.2)

/-- Running `harvest_all` against the public transport alone: the same run with
the authenticated path disabled (`REDDIT_API_ENABLED` false). -/
def pubOnly (w : World) : World := { w with enabled := false }

/-! ## Concrete fixtures used in witnesses and counterexamples -/

/-- A raw item with score 50 (spec pagination example). -/
def exItem50 : RawItem := { score := some 50 }

/-- A raw item with score 5 (filtered out at `MIN_SCORE = 10`). -/
def exItem5 : RawItem := { score := some 5 }

/-- A raw item with score 20 (spec pagination example). -/
def exItem20 : RawItem := { score := some 20 }

/-- A raw item with score 8 (filtered out at `MIN_SCORE = 10`). -/
def exItem8 : RawItem := { score := some 8 }

/-- A public-only fixture world: one community, one page holding items
with scores 50, 5 and 20 and no continuation token, a comment endpoint
that always fails at the network level. -/
def exWorldPub : World :=
  { enabled := false
    prawAvail := false
    attempt := .constructFails
    minScore := 10
    subs := ["vosfinances"]
    prawPosts := fun _ _ => []
    pubPages := fun _ _ => [PageResp.page [exItem50, exItem5, exItem20] none]
    prawComments := fun _ _ => .raiseExc
    pubComments := fun _ _ => .error () }

/-- A praw submission that coincides field-by-field with `exItemDup`
below once both are turned into posts. -/
def exPraw50 : RawPraw :=
  { id := "a"
    title := "t"
    selftext := some ""
    score := 50
    num_comments := 0
    created_utc := 86400
    permalink := "/p"
    author := some "u"
    upvoteFrac := 0 }

/-- A public raw item describing the same post as `exPraw50`. -/
def exItemDup : RawItem :=
  { id := some "a"
    title := some "t"
    selftext := some ""
    score := some 50
    num_comments := some 0
    created_utc := some 86400
    permalink := some "/p"
    author := some "u"
    upvoteFrac := some 0 }

/-- A day-window item created before the cutoff in the C5 witness. -/
def exItemOld : RawItem := { score := some 30, created_utc := some 100 }

/-- A day-window item created after the cutoff in the C5 witness. -/
def exItemNew : RawItem := { score := some 40, created_utc := some 5000 }

/-- Fixture world for the incremental harvest: one community whose
day-window page holds one stale and one fresh post. -/
def exWorldRecent : World :=
  { enabled := false
    prawAvail := false
    attempt := .constructFails
    minScore := 10
    subs := ["vosfinances"]
    prawPosts := fun _ _ => []
    pubPages := fun _ _ => [PageResp.page [exItemOld, exItemNew] none]
    prawComments := fun _ _ => .raiseExc
    pubComments := fun _ _ => .error () }

/-- A well-formed comment response: post listing, then a comment listing
whose first child is a `t1` comment. -/
def exGoodCommentBody : Json :=
  Json.arr [Json.obj [],
    Json.obj [("data", Json.obj [("children", Json.arr [
      Json.obj [("kind", Json.str "t1"),
        ("data", Json.obj [("id", Json.str "c1"), ("body", Json.str "hello"),
          ("score", Json.num 3), ("author", Json.str "u")])]])])]]

/-- The comment `fetch_top_comment_public` extracts from
`exGoodCommentBody`. -/
def exComment : Comment :=
  { comment_id := .str "c1"
    comment_body := .str "hello"
    comment_score := .num 3
    comment_author := .str "u" }

/-- A world whose authenticated client is created and authenticated
successfully, but every subsequent authenticated request raises; the
public endpoints serve one passing post and a well-formed comment. -/
def exWorldAuthRaises : World :=
  { enabled := true
    prawAvail := true
    attempt := .ok 1
    minScore := 10
    subs := ["vosfinances"]
    prawPosts := fun _ _ => [PrawEvent.raiseExc]
    pubPages := fun _ _ => [PageResp.page [exItem50] none]
    prawComments := fun _ _ => .raiseExc
    pubComments := fun _ _ => .ok exGoodCommentBody }

/-- A world whose client construction raises on every attempt. -/
def exWorldCF : World :=
  { exWorldAuthRaises with attempt := .constructFails }

/-- A rate-limit-style JSON object, as Reddit returns with HTTP 200 on
throttled comment requests: a dict, not the expected two-element list. -/
def exRateLimitBody : Json :=
  Json.obj [("message", Json.str "Too Many Requests"), ("error", Json.num 429)]

/-- A public-only world whose comment endpoint returns the
rate-limit-style object for every post. -/
def exWorldBadComment : World :=
  { exWorldPub with pubComments := fun _ _ => .ok exRateLimitBody }

/-! ## Basic lemmas -/

theorem pyTake_length_le (n : Nat) (s : String) : (pyTake n s).length ≤ n := by
  show (s.data.take n).length ≤ n
  rw [List.length_take]
  exact Nat.min_le_left _ _

/-- The score filter of the public path (`score >= MIN_SCORE`, line 157),
as a Boolean predicate on raw items. -/
def acceptsItem (m : Int) (d : RawItem) : Bool := decide (m ≤ d.score.getD 0)

theorem processPage_eq (m : Int) (sub : String) (items : List RawItem) :
    processPage m sub items
      = ((items.filter (acceptsItem m)).map (mkPublicPost sub),
         (items.filter (acceptsItem m)).length) := by
  induction items with
  | nil => rfl
  | cons d rest ih =>
    by_cases h : m ≤ d.score.getD 0 <;>
      simp [processPage, List.filter_cons, acceptsItem, h, ih]

/-- A page of the mocked listing endpoint with a continuation token. -/
def goodResp (pr : List RawItem × String) : PageResp := .page pr.1 (some pr.2)

/-- How many items of a page pass the score filter
(the amount `total_fetched` grows by on that page). -/
def pageAccepted (m : Int) (ch : List RawItem) : Nat :=
  (ch.filter (acceptsItem m)).length

/-- Running the pagination loop through a block of non-empty pages that
all carry a continuation token: each page costs one request, yields its
filtered items in order, and the loop continues into `rest` with the
accepted count added to `total`. -/
theorem publicGo_goodPages (m : Int) (sub : String) (limit : Nat)
    (pages : List (List RawItem × String)) (rest : List PageResp)
    (total : Nat)
    (hp : ∀ pr ∈ pages, pr.1 ≠ [] ∧ pr.2 ≠ "")
    (hlim : ∀ k < pages.length,
      total + ((pages.take k).map (fun pr => pageAccepted m pr.1)).sum < limit) :
    fetchPublicGo m sub limit total (pages.map goodResp ++ rest)
      = ((pages.map (fun pr => (processPage m sub pr.1).1)).flatten
           ++ (fetchPublicGo m sub limit
                (total + ((pages.map (fun pr => pageAccepted m pr.1)).sum)) rest).1,
         pages.length
           + (fetchPublicGo m sub limit
                (total + ((pages.map (fun pr => pageAccepted m pr.1)).sum)) rest).2) := by
  induction pages generalizing total with
  | nil => simp
  | cons pr ps ih =>
    obtain ⟨hne, htok⟩ := hp pr (by simp)
    have hguard : ¬ limit ≤ total := by
      have := hlim 0 (by simp)
      simp at this
      omega
    have hcount : (processPage m sub pr.1).2 = pageAccepted m pr.1 := by
      simp [processPage_eq, pageAccepted]
    have hstep := ih (total + pageAccepted m pr.1)
      (fun q hq => hp q (by simp [hq]))
      (by
        intro k hk
        have := hlim (k + 1) (by simpa using hk)
        simpa [List.take_succ_cons, Nat.add_assoc] using this)
    simp only [List.map_cons, List.cons_append, goodResp]
    rw [fetchPublicGo]
    simp only [hguard, if_false]
    have hne' : pr.1.isEmpty = false := by
      simpa [List.isEmpty_iff] using hne
    have htok' : tokenTruthy (some pr.2) = true := by
      simpa [tokenTruthy] using htok
    simp only [hne', htok', hcount, hstep]
    simp [Nat.add_assoc, Nat.add_comm, Nat.add_left_comm]

/-- A page without a continuation token ends the loop after being
processed: its filtered items are yielded, one request is issued, and
nothing after it in the response list is consumed. -/
theorem publicGo_lastPage (m : Int) (sub : String) (limit t : Nat)
    (lastCh : List RawItem) (extra : List PageResp) (h : ¬ limit ≤ t) :
    fetchPublicGo m sub limit t (PageResp.page lastCh none :: extra)
      = ((lastCh.filter (acceptsItem m)).map (mkPublicPost sub), 1) := by
  rw [fetchPublicGo]
  simp only [h, if_false]
  by_cases hemp : lastCh.isEmpty
  · have he : lastCh = [] := List.isEmpty_iff.mp hemp
    subst he
    simp
  · simp [hemp, tokenTruthy, processPage_eq]

/-- A network-level failure ends the loop: the failing request is
counted, nothing is yielded by it, and nothing after it is consumed. -/
theorem publicGo_netErr (m : Int) (sub : String) (limit t : Nat)
    (extra : List PageResp) (h : ¬ limit ≤ t) :
    fetchPublicGo m sub limit t (PageResp.netErr :: extra) = ([], 1) := by
  rw [fetchPublicGo]
  simp [h]

/-- C3: public pagination is exact and terminates.  Given `N` non-empty
pages carrying continuation tokens followed by a page without one (and
arbitrary further server behaviour `extra`), provided the accepted count
stays below `limit` at every loop-guard check, the public fetch yields
exactly the score-filtered union of the `N+1` pages in order and issues
exactly `N+1` page requests — nothing after the tokenless page is
requested. -/
theorem c3_pagination_exact (m : Int) (sub : String) (limit : Nat)
    (pages : List (List RawItem × String)) (lastCh : List RawItem)
    (extra : List PageResp)
    (hp : ∀ pr ∈ pages, pr.1 ≠ [] ∧ pr.2 ≠ "")
    (hlim : ∀ k ≤ pages.length,
      ((pages.take k).map (fun pr => pageAccepted m pr.1)).sum < limit) :
    fetch_subreddit_posts_public m sub
        (pages.map goodResp ++ PageResp.page lastCh none :: extra) limit
      = (((pages.map Prod.fst ++ [lastCh]).map
            (fun ch => (ch.filter (acceptsItem m)).map (mkPublicPost sub))).flatten,
         pages.length + 1) := by
  unfold fetch_subreddit_posts_public
  rw [publicGo_goodPages m sub limit pages _ 0 hp
    (fun k hk => by simpa using hlim k (le_of_lt hk))]
  have hguard : ¬ limit ≤ 0 + (pages.map (fun pr => pageAccepted m pr.1)).sum := by
    have := hlim pages.length le_rfl
    simp at this
    omega
  rw [publicGo_lastPage m sub limit _ lastCh extra hguard]
  simp [processPage_eq, List.flatten_append, Function.comp_def]

/-- C8: a network-level failure mid-pagination aborts the loop.  After
`N` successfully processed pages the failing request is the last one
issued: the posts already yielded stand as the result, nothing after the
failure is requested, and the fetch returns normally. -/
theorem c8_netErr_aborts (m : Int) (sub : String) (limit : Nat)
    (pages : List (List RawItem × String)) (extra : List PageResp)
    (hp : ∀ pr ∈ pages, pr.1 ≠ [] ∧ pr.2 ≠ "")
    (hlim : ∀ k ≤ pages.length,
      ((pages.take k).map (fun pr => pageAccepted m pr.1)).sum < limit) :
    fetch_subreddit_posts_public m sub
        (pages.map goodResp ++ PageResp.netErr :: extra) limit
      = ((pages.map
            (fun pr => (pr.1.filter (acceptsItem m)).map (mkPublicPost sub))).flatten,
         pages.length + 1) := by
  unfold fetch_subreddit_posts_public
  rw [publicGo_goodPages m sub limit pages _ 0 hp
    (fun k hk => by simpa using hlim k (le_of_lt hk))]
  have hguard : ¬ limit ≤ 0 + (pages.map (fun pr => pageAccepted m pr.1)).sum := by
    have := hlim pages.length le_rfl
    simp at this
    omega
  rw [publicGo_netErr m sub limit _ extra hguard]
  simp [processPage_eq, Function.comp_def]

/-- Witness for C3, on the spec's own example: community "vosfinances",
`MIN_SCORE = 10`, page 1 holds scores `[50, 5, 20]` with token `"abc"`,
page 2 holds `[8]` and no token; the fetch yields the posts with scores
50 and 20 in that order and issues exactly two page requests. -/
theorem c3_pagination_exact_witness :
    fetch_subreddit_posts_public 10 "vosfinances"
        [goodResp ([exItem50, exItem5, exItem20], "abc"),
         PageResp.page [exItem8] none] 100
      = ([mkPublicPost "vosfinances" exItem50, mkPublicPost "vosfinances" exItem20], 2)
    ∧ (mkPublicPost "vosfinances" exItem50).score = 50
    ∧ (mkPublicPost "vosfinances" exItem20).score = 20 :=
  ⟨(c3_pagination_exact 10 "vosfinances" 100 [([exItem50, exItem5, exItem20], "abc")]
      [exItem8] [] (by decide) (by decide)).trans rfl, rfl, rfl⟩

/-- Witness for C8: one full page then a network failure; the two posts
already yielded stand, two requests were issued, the trailing responses
are never requested. -/
theorem c8_netErr_aborts_witness :
    fetch_subreddit_posts_public 10 "vosfinances"
        [goodResp ([exItem50, exItem5, exItem20], "abc"),
         PageResp.netErr, PageResp.netErr] 100
      = ([mkPublicPost "vosfinances" exItem50, mkPublicPost "vosfinances" exItem20], 2) :=
  (c8_netErr_aborts 10 "vosfinances" 100 [([exItem50, exItem5, exItem20], "abc")]
    [PageResp.netErr] (by decide) (by decide)).trans rfl

/-! ## Where posts come from -/

theorem processPage_mem (m : Int) (sub : String) (items : List RawItem)
    (p : Post) (h : p ∈ (processPage m sub items).1) :
    ∃ d, m ≤ d.score.getD 0 ∧ p = mkPublicPost sub d := by
  rw [processPage_eq] at h
  simp only [List.mem_map, List.mem_filter] at h
  obtain ⟨d, ⟨_, hacc⟩, rfl⟩ := h
  exact ⟨d, by simpa [acceptsItem] using hacc, rfl⟩

theorem publicGo_mem (m : Int) (sub : String) (limit : Nat)
    (resps : List PageResp) :
    ∀ (total : Nat) (p : Post), p ∈ (fetchPublicGo m sub limit total resps).1 →
      ∃ d, m ≤ d.score.getD 0 ∧ p = mkPublicPost sub d := by
  induction resps with
  | nil => intro total p h; simp [fetchPublicGo] at h
  | cons r rest ih =>
    intro total p h
    cases r with
    | netErr =>
      rw [fetchPublicGo] at h
      by_cases hg : limit ≤ total <;> simp [hg] at h
    | page children after =>
      rw [fetchPublicGo] at h
      by_cases hg : limit ≤ total
      · simp [hg] at h
      · simp only [hg, if_false] at h
        by_cases hemp : children.isEmpty
        · simp [hemp] at h
        · simp only [hemp, Bool.false_eq_true, if_false] at h
          by_cases htok : tokenTruthy after
          · simp only [htok, if_true, List.mem_append] at h
            rcases h with h | h
            · exact processPage_mem m sub children p h
            · exact ih _ p h
          · simp only [htok, Bool.false_eq_true, if_false] at h
            exact processPage_mem m sub children p h

theorem fetch_public_mem (m : Int) (sub : String) (resps : List PageResp)
    (limit : Nat) (p : Post)
    (h : p ∈ (fetch_subreddit_posts_public m sub resps limit).1) :
    ∃ d, m ≤ d.score.getD 0 ∧ p = mkPublicPost sub d :=
  publicGo_mem m sub limit resps 0 p h

theorem prawGo_mem (m : Int) (sub : String) (pubResps : List PageResp)
    (limit : Nat) (evs : List PrawEvent) (p : Post)
    (h : p ∈ prawGo m sub pubResps limit evs) :
    (∃ d, m ≤ d.score ∧ p = mkPrawPost sub d)
      ∨ (∃ d, m ≤ d.score.getD 0 ∧ p = mkPublicPost sub d) := by
  induction evs with
  | nil => simp [prawGo] at h
  | cons e rest ih =>
    cases e with
    | item d =>
      rw [prawGo] at h
      by_cases hs : m ≤ d.score
      · simp only [hs, if_true, List.mem_append, List.mem_singleton] at h
        rcases h with h | h
        · exact .inl ⟨d, hs, h⟩
        · exact ih h
      · simp only [hs, if_false, List.nil_append] at h
        exact ih h
    | raiseExc =>
      rw [prawGo] at h
      exact .inr (fetch_public_mem m sub pubResps limit p h)

theorem mkPublicPost_inv (m : Int) (sub : String) (d : RawItem)
    (h : m ≤ d.score.getD 0) :
    m ≤ (mkPublicPost sub d).score
      ∧ (mkPublicPost sub d).selftext.length ≤ 2000
      ∧ (mkPublicPost sub d).comment = none :=
  ⟨by simpa [mkPublicPost] using h,
   by simpa [mkPublicPost] using pyTake_length_le 2000 (d.selftext.getD ""),
   rfl⟩

theorem mkPrawPost_inv (m : Int) (sub : String) (d : RawPraw)
    (h : m ≤ d.score) :
    m ≤ (mkPrawPost sub d).score
      ∧ (mkPrawPost sub d).selftext.length ≤ 2000
      ∧ (mkPrawPost sub d).comment = none :=
  ⟨by simpa [mkPrawPost] using h,
   by simpa [mkPrawPost] using pyTake_length_le 2000 (d.selftext.getD ""),
   rfl⟩

/-- Every post yielded by the authenticated fetch — whichever transport
ends up serving it — passes the score filter, respects the body cap and
is not yet enriched. -/
theorem fetch_praw_inv (w : World) (st : Option Nat)
    (sub tf : String) (limit : Nat) (p : Post)
    (h : p ∈ (fetch_subreddit_posts_praw w st sub tf limit).1) :
    w.minScore ≤ p.score ∧ p.selftext.length ≤ 2000 ∧ p.comment = none := by
  cases hc : (get_reddit_client w st).1 with
  | none =>
    simp only [fetch_subreddit_posts_praw, hc] at h
    obtain ⟨d, hs, rfl⟩ := fetch_public_mem _ _ _ _ p h
    exact mkPublicPost_inv _ _ _ hs
  | some c =>
    simp only [fetch_subreddit_posts_praw, hc] at h
    rcases prawGo_mem _ _ _ _ _ p h with ⟨d, hs, rfl⟩ | ⟨d, hs, rfl⟩
    · exact mkPrawPost_inv _ _ _ hs
    · exact mkPublicPost_inv _ _ _ hs

/-- Every post produced by a `fetch_subreddit_posts` call — whichever
transport ends up serving it — passes the score filter, respects the
body cap and is not yet enriched. -/
theorem fetch_subreddit_posts_inv (w : World) (st : Option Nat)
    (sub tf : String) (limit : Nat) (p : Post)
    (h : p ∈ (fetch_subreddit_posts w st sub tf limit).1) :
    w.minScore ≤ p.score ∧ p.selftext.length ≤ 2000 ∧ p.comment = none := by
  unfold fetch_subreddit_posts at h
  by_cases hd : w.enabled && w.prawAvail
  · simp only [hd, if_true] at h
    exact fetch_praw_inv w st sub tf limit p h
  · simp only [hd, Bool.false_eq_true, if_false] at h
    obtain ⟨d, hs, rfl⟩ := fetch_public_mem _ _ _ _ p h
    exact mkPublicPost_inv _ _ _ hs

/-! ## Enrichment only touches the comment fields -/

theorem enrich_score (p : Post) (c : Option Comment) :
    (enrich p c).score = p.score := by cases c <;> rfl

theorem enrich_selftext (p : Post) (c : Option Comment) :
    (enrich p c).selftext = p.selftext := by cases c <;> rfl

theorem enrich_created_utc (p : Post) (c : Option Comment) :
    (enrich p c).created_utc = p.created_utc := by cases c <;> rfl

theorem enrich_author (p : Post) (c : Option Comment) :
    (enrich p c).author = p.author := by cases c <;> rfl

/-! ## The harvest loops only enrich and append -/

/-- Every post in a successful `fetch_all_posts` per-community loop run
is an input post with at most its comment fields merged in. -/
theorem allLoop_mem (w : World) (wc : Bool) (sub : String) :
    ∀ (ps : List Post) (st : Option Nat) (l : List Post) (st2 : Option Nat),
      allLoop w wc sub st ps = .ok (l, st2) →
      ∀ p ∈ l, ∃ q c, q ∈ ps ∧ p = enrich q c := by
  intro ps
  induction ps with
  | nil =>
    intro st l st2 h p hp
    simp only [allLoop] at h
    cases h
    simp at hp
  | cons q rest ih =>
    intro st l st2 h p hp
    rw [allLoop] at h
    by_cases hwc : wc = true
    · rw [if_pos hwc] at h
      split at h
      · simp at h
      · rename_i c st1 heq
        split at h
        · simp at h
        · rename_i ps2 st3 heq2
          simp only [Except.ok.injEq, Prod.mk.injEq] at h
          obtain ⟨h1, h2⟩ := h
          subst h1
          rcases List.mem_cons.mp hp with rfl | hp2
          · exact ⟨q, c, by simp, rfl⟩
          · obtain ⟨q2, c2, hq2, rfl⟩ := ih st1 ps2 st3 heq2 p hp2
            exact ⟨q2, c2, by simp [hq2], rfl⟩
    · rw [if_neg hwc] at h
      split at h
      · simp at h
      · rename_i ps2 st3 heq2
        simp only [Except.ok.injEq, Prod.mk.injEq] at h
        obtain ⟨h1, h2⟩ := h
        subst h1
        rcases List.mem_cons.mp hp with rfl | hp2
        · exact ⟨p, none, by simp, rfl⟩
        · obtain ⟨q2, c2, hq2, rfl⟩ := ih st ps2 st3 heq2 p hp2
          exact ⟨q2, c2, by simp [hq2], rfl⟩

/-- Every post in a successful `fetch_new_posts` per-community loop run
is an input post with at most its comment fields merged in (the cutoff
check only skips posts). -/
theorem newLoop_mem (w : World) (wc : Bool) (sub : String) (cutoff : Int) :
    ∀ (ps : List Post) (st : Option Nat) (l : List Post) (st2 : Option Nat),
      newLoop w wc sub cutoff st ps = .ok (l, st2) →
      ∀ p ∈ l, ∃ q c, q ∈ ps ∧ p = enrich q c := by
  intro ps
  induction ps with
  | nil =>
    intro st l st2 h p hp
    simp only [newLoop] at h
    cases h
    simp at hp
  | cons q rest ih =>
    intro st l st2 h p hp
    rw [newLoop] at h
    by_cases hcut : cutoff ≤ q.created_utc
    · rw [if_pos hcut] at h
      by_cases hwc : wc = true
      · rw [if_pos hwc] at h
        split at h
        · simp at h
        · rename_i c st1 heq
          split at h
          · simp at h
          · rename_i ps2 st3 heq2
            simp only [Except.ok.injEq, Prod.mk.injEq] at h
            obtain ⟨h1, h2⟩ := h
            subst h1
            rcases List.mem_cons.mp hp with rfl | hp2
            · exact ⟨q, c, by simp, rfl⟩
            · obtain ⟨q2, c2, hq2, rfl⟩ := ih st1 ps2 st3 heq2 p hp2
              exact ⟨q2, c2, by simp [hq2], rfl⟩
      · rw [if_neg hwc] at h
        split at h
        · simp at h
        · rename_i ps2 st3 heq2
          simp only [Except.ok.injEq, Prod.mk.injEq] at h
          obtain ⟨h1, h2⟩ := h
          subst h1
          rcases List.mem_cons.mp hp with rfl | hp2
          · exact ⟨p, none, by simp, rfl⟩
          · obtain ⟨q2, c2, hq2, rfl⟩ := ih st ps2 st3 heq2 p hp2
            exact ⟨q2, c2, by simp [hq2], rfl⟩
    · rw [if_neg hcut] at h
      obtain ⟨q2, c2, hq2, rfl⟩ := ih st l st2 h p hp
      exact ⟨q2, c2, by simp [hq2], rfl⟩

/-- Score invariant through the full `fetch_all_posts` community loop. -/
theorem subsLoop_score (w : World) (tf : String) (wc : Bool) (limit : Nat) :
    ∀ (subsL : List String) (st : Option Nat) (l : List Post) (st2 : Option Nat),
      subsLoop w tf wc limit st subsL = .ok (l, st2) →
      ∀ p ∈ l, w.minScore ≤ p.score := by
  intro subsL
  induction subsL with
  | nil =>
    intro st l st2 h p hp
    simp only [subsLoop] at h
    cases h
    simp at hp
  | cons sub rest ih =>
    intro st l st2 h p hp
    simp only [subsLoop] at h
    split at h
    · simp at h
    · rename_i enriched st3 heq
      split at h
      · simp at h
      · rename_i more st4 heq2
        simp only [Except.ok.injEq, Prod.mk.injEq] at h
        obtain ⟨h1, h2⟩ := h
        subst h1
        rcases List.mem_append.mp hp with hp1 | hp2
        · obtain ⟨q, c, hq, rfl⟩ := allLoop_mem w wc sub _ _ _ _ heq p hp1
          rw [enrich_score]
          exact (fetch_subreddit_posts_inv w st sub tf limit q hq).1
        · exact ih _ _ _ heq2 p hp2

/-- Score invariant through the full `fetch_new_posts` community loop. -/
theorem newSubsLoop_score (w : World) (wc : Bool) (cutoff : Int) :
    ∀ (subsL : List String) (st : Option Nat) (l : List Post) (st2 : Option Nat),
      newSubsLoop w wc cutoff st subsL = .ok (l, st2) →
      ∀ p ∈ l, w.minScore ≤ p.score := by
  intro subsL
  induction subsL with
  | nil =>
    intro st l st2 h p hp
    simp only [newSubsLoop] at h
    cases h
    simp at hp
  | cons sub rest ih =>
    intro st l st2 h p hp
    simp only [newSubsLoop] at h
    split at h
    · simp at h
    · rename_i kept st3 heq
      split at h
      · simp at h
      · rename_i more st4 heq2
        simp only [Except.ok.injEq, Prod.mk.injEq] at h
        obtain ⟨h1, h2⟩ := h
        subst h1
        rcases List.mem_append.mp hp with hp1 | hp2
        · obtain ⟨q, c, hq, rfl⟩ := newLoop_mem w wc sub cutoff _ _ _ _ heq p hp1
          rw [enrich_score]
          exact (fetch_subreddit_posts_inv w st sub "day" 100 q hq).1
        · exact ih _ _ _ heq2 p hp2

/-- C1: every post returned by any fetch operation — the public fetch,
the authenticated fetch (including its fallbacks), `fetch_all_posts` and
`fetch_new_posts` — has `score >= MIN_SCORE` for the configured minimum.
The transport-level conjuncts show the filter holds already at the
moment a post is constructed during the fetch; the harvest loops never
remove or add posts on account of score afterwards. -/
theorem c1_score_filter (w : World) (st : Option Nat) (sub tf : String)
    (m : Int) (resps : List PageResp) (limit : Nat) (wc : Bool)
    (now sinceHours : Int) :
    (∀ p ∈ (fetch_subreddit_posts_public m sub resps limit).1, m ≤ p.score)
    ∧ (∀ p ∈ (fetch_subreddit_posts_praw w st sub tf limit).1, w.minScore ≤ p.score)
    ∧ (∀ l, fetch_all_posts w wc limit st = .ok l → ∀ p ∈ l, w.minScore ≤ p.score)
    ∧ (∀ l, fetch_new_posts w now sinceHours wc st = .ok l →
        ∀ p ∈ l, w.minScore ≤ p.score) := by
  refine ⟨?_, ?_, ?_, ?_⟩
  · intro p hp
    obtain ⟨d, hs, rfl⟩ := fetch_public_mem m sub resps limit p hp
    exact (mkPublicPost_inv m sub d hs).1
  · intro p hp
    exact (fetch_praw_inv w st sub tf limit p hp).1
  · intro l hl p hp
    unfold fetch_all_posts at hl
    split at hl
    · simp at hl
    · rename_i l2 st2 heq
      simp only [Except.ok.injEq] at hl
      subst hl
      exact subsLoop_score w TIME_FILTER wc limit w.subs st l2 st2 heq p hp
  · intro l hl p hp
    unfold fetch_new_posts at hl
    split at hl
    · simp at hl
    · rename_i l2 st2 heq
      simp only [Except.ok.injEq] at hl
      subst hl
      exact newSubsLoop_score w wc (now - sinceHours * 3600) w.subs st l2 st2 heq p hp

/-- Witness for C1: in the public fixture world, `fetch_all_posts`
returns exactly the two posts built from the items with scores 50 and
20, and the theorem yields `10 ≤ score` for each. -/
theorem c1_score_filter_witness :
    (10 : Int) ≤ (mkPublicPost "vosfinances" exItem50).score
    ∧ (10 : Int) ≤ (mkPublicPost "vosfinances" exItem20).score := by
  have h := (c1_score_filter exWorldPub none "vosfinances" "all" 10
      [PageResp.page [exItem50, exItem5, exItem20] none] 100 true 0 0).2.2.1
      [mkPublicPost "vosfinances" exItem50, mkPublicPost "vosfinances" exItem20] rfl
  exact ⟨h _ (by simp), h _ (by simp)⟩

/-! ## Body-length caps -/

theorem pySlice_len_le (j b : Json) (cap n : Nat) (h : pySlice j cap = .ok b)
    (hl : pyLen b = .ok n) : n ≤ cap := by
  cases j with
  | str s =>
    simp only [pySlice, Except.ok.injEq] at h
    subst h
    simp only [pyLen, Except.ok.injEq] at hl
    subst hl
    exact pyTake_length_le cap s
  | arr xs =>
    simp only [pySlice, Except.ok.injEq] at h
    subst h
    simp only [pyLen, Except.ok.injEq] at hl
    subst hl
    simp only [List.length_take]
    omega
  | null => simp [pySlice] at h
  | bool b2 => simp [pySlice] at h
  | num n2 => simp [pySlice] at h
  | obj kvs => simp [pySlice] at h

/-- Function `fetch_top_comment_public` either returns no comment, raises, or
returns a comment whose body is the result of the `[:1000]` slice. -/
theorem fetch_top_comment_public_shape (resp : Except Unit Json) :
    fetch_top_comment_public resp = .ok none
    ∨ (∃ e, fetch_top_comment_public resp = .error e)
    ∨ (∃ c raw, fetch_top_comment_public resp = .ok (some c)
        ∧ pySlice raw 1000 = .ok c.comment_body) := by
  unfold fetch_top_comment_public
  repeat' split
  all_goals first
    | exact .inl rfl
    | exact .inr (.inl ⟨_, rfl⟩)
    | exact .inr (.inr ⟨_, _, rfl, by assumption⟩)

/-- C9: body caps.  Every post produced by either transport has
`len(selftext) <= 2000`, and every comment produced by either transport
has `len(comment_body) <= 1000`. -/
theorem c9_body_caps (w : World) (st : Option Nat) (sub tf : String)
    (m : Int) (resps : List PageResp) (limit : Nat)
    (resp : Except Unit Json) :
    (∀ p ∈ (fetch_subreddit_posts_public m sub resps limit).1,
      p.selftext.length ≤ 2000)
    ∧ (∀ p ∈ (fetch_subreddit_posts_praw w st sub tf limit).1,
      p.selftext.length ≤ 2000)
    ∧ (∀ pid c st2, fetch_top_comment_praw w st pid sub = (.ok (some c), st2) →
        ∀ n, pyLen c.comment_body = .ok n → n ≤ 1000)
    ∧ (∀ c, fetch_top_comment_public resp = .ok (some c) →
        ∀ n, pyLen c.comment_body = .ok n → n ≤ 1000) := by
  have hpub : ∀ (r : Except Unit Json) (c : Comment),
      fetch_top_comment_public r = .ok (some c) →
      ∀ n, pyLen c.comment_body = .ok n → n ≤ 1000 := by
    intro r c hc n hn
    rcases fetch_top_comment_public_shape r with h0 | ⟨e, h0⟩ | ⟨c2, raw, h0, hs⟩
    · rw [h0] at hc; simp at hc
    · rw [h0] at hc; simp at hc
    · rw [h0] at hc
      simp only [Except.ok.injEq, Option.some.injEq] at hc
      subst hc
      exact pySlice_len_le raw _ 1000 n hs hn
  refine ⟨?_, ?_, ?_, hpub resp⟩
  · intro p hp
    obtain ⟨d, hs, rfl⟩ := fetch_public_mem m sub resps limit p hp
    exact (mkPublicPost_inv m sub d hs).2.1
  · intro p hp
    exact (fetch_praw_inv w st sub tf limit p hp).2.1
  · intro pid c st2 hc n hn
    cases hcl : (get_reddit_client w st).1 with
    | none =>
      simp only [fetch_top_comment_praw, hcl, Prod.mk.injEq] at hc
      exact hpub _ c hc.1 n hn
    | some cl =>
      simp only [fetch_top_comment_praw, hcl] at hc
      rcases hpc : w.prawComments pid sub with cs | _
      · rw [hpc] at hc
        cases cs with
        | nil => simp at hc
        | cons c0 cs2 =>
          simp only [Prod.mk.injEq, Except.ok.injEq, Option.some.injEq] at hc
          obtain ⟨rfl, -⟩ := hc
          simp only [mkPrawComment, pyLen, Except.ok.injEq] at hn
          subst hn
          exact pyTake_length_le 1000 (c0.body.getD "")
      · rw [hpc] at hc
        simp at hc

/-- Witness for C9: the fixture fetch yields the score-50 post, whose
body is within the cap, and a concrete well-formed comment response
yields a comment whose body is within the cap. -/
theorem c9_body_caps_witness :
    (mkPublicPost "vosfinances" exItem50).selftext.length ≤ 2000 := by
  have h := (c9_body_caps exWorldPub none "vosfinances" "all" 10
      [PageResp.page [exItem50, exItem5, exItem20] none] 100 (.error ())).1
  refine h (mkPublicPost "vosfinances" exItem50) ?_
  rw [show (fetch_subreddit_posts_public 10 "vosfinances"
      [PageResp.page [exItem50, exItem5, exItem20] none] 100).1
    = [mkPublicPost "vosfinances" exItem50, mkPublicPost "vosfinances" exItem20] from rfl]
  simp

/-! ## Authenticated fallback and client caching -/

/-- C7 (amended): if iterating the authenticated listing raises after
some prefix of items, the caller sees the score-filtered prefix followed
by the ENTIRE public fetch of the same call parameters, restarted from
the beginning with the full limit; events after the raise are never
consumed.  (The source's `except` clause runs
`yield from fetch_subreddit_posts_public(subreddit, time_filter, limit)`
with the original arguments, so the public sequence is not resumed at
the failure point.) -/
theorem c7_fallback_restarts_public (m : Int) (sub : String)
    (pub : List PageResp) (limit : Nat) (items : List RawPraw)
    (rest : List PrawEvent) :
    prawGo m sub pub limit (items.map PrawEvent.item ++ PrawEvent.raiseExc :: rest)
      = ((items.filter (fun d => decide (m ≤ d.score))).map (mkPrawPost sub))
        ++ (fetch_subreddit_posts_public m sub pub limit).1 := by
  induction items with
  | nil => simp [prawGo]
  | cons d ds ih =>
    by_cases hs : m ≤ d.score <;>
      simp [prawGo, List.filter_cons, hs, ih]

/-- Counterexample for C7 as stated: the authenticated listing yields
the post built from `exPraw50` and then raises; the public pages contain
the same post.  The caller receives that post twice — the fallback
restarts from the beginning rather than serving only the remainder. -/
theorem c7_counterexample :
    prawGo 10 "vosfinances" [PageResp.page [exItemDup] none] 100
        [PrawEvent.item exPraw50, PrawEvent.raiseExc]
      = [mkPrawPost "vosfinances" exPraw50, mkPrawPost "vosfinances" exPraw50]
    ∧ ¬ ([mkPrawPost "vosfinances" exPraw50,
          mkPrawPost "vosfinances" exPraw50]).Nodup :=
  ⟨rfl, by simp⟩

/-- C6 (amended): a failed client CONSTRUCTION is not cached — the
global stays unset, so the next call re-enters the unresolved state and
re-runs the construction + authentication attempt from scratch.  But
when construction succeeds and the authentication test raises, the
already-assigned client is cached: every later call returns it
immediately, whatever outcome a fresh attempt would have had. -/
theorem c6_client_cache_amended (att2 : ClientAttempt) (c : Nat) :
    ((getRedditClientCore true true .constructFails none).1 = none
      ∧ (getRedditClientCore true true .constructFails none).2 = none
      ∧ getRedditClientCore true true att2
          ((getRedditClientCore true true .constructFails none).2)
        = getRedditClientCore true true att2 none)
    ∧ ((getRedditClientCore true true (.authFails c) none).1 = none
      ∧ (getRedditClientCore true true (.authFails c) none).2 = some c
      ∧ getRedditClientCore true true att2
          ((getRedditClientCore true true (.authFails c) none).2)
        = (some c, some c)) :=
  ⟨⟨rfl, rfl, rfl⟩, rfl, rfl, rfl⟩

/-- Counterexample for C6 as stated: when the authentication test raises
(`authFails 7`), the first call returns no client but leaves the broken
instance in the global; the second top-level call returns that
remembered client — it does not re-enter the unresolved state (a fresh
attempt under the same conditions returns no client, as the first call
shows). -/
theorem c6_counterexample :
    getRedditClientCore true true (.authFails 7) none = (none, some 7)
    ∧ getRedditClientCore true true (.authFails 7) (some 7) = (some 7, some 7)
    ∧ (getRedditClientCore true true (.authFails 7) (some 7)).1
        ≠ (getRedditClientCore true true (.authFails 7) none).1 :=
  ⟨rfl, rfl, by decide⟩

/-! ## Author sentinels -/

/-- C10 (amended): the authenticated path always stores a string author,
with `"[deleted]"` when the praw author is missing — in particular every
post yielded from praw items proper (no fallback) has a non-null author;
the public path stores the raw `author` value verbatim, which may be
absent. -/
theorem c10_author_sentinel_amended (sub : String) (d : RawPraw)
    (d2 : RawItem) (rc : RawComment) :
    ((mkPrawPost sub d).author = some (d.author.getD "[deleted]"))
    ∧ ((mkPrawComment rc).comment_author = Json.str (rc.author.getD "[deleted]"))
    ∧ ((mkPublicPost sub d2).author = d2.author)
    ∧ (∀ (m : Int) (pub : List PageResp) (limit : Nat)
        (evs : List PrawEvent) (p : Post),
        (∀ e ∈ evs, e ≠ PrawEvent.raiseExc) →
        p ∈ prawGo m sub pub limit evs → p.author ≠ none) := by
  refine ⟨rfl, rfl, rfl, ?_⟩
  intro m pub limit evs
  induction evs with
  | nil => intro p _ hp; simp [prawGo] at hp
  | cons e rest ih =>
    intro p hno hp
    cases e with
    | item d0 =>
      rw [prawGo] at hp
      by_cases hs : m ≤ d0.score
      · simp only [hs, if_true, List.mem_append, List.mem_singleton] at hp
        rcases hp with rfl | hp2
        · simp [mkPrawPost]
        · exact ih p (fun q hq => hno q (by simp [hq])) hp2
      · simp only [hs, if_false, List.nil_append] at hp
        exact ih p (fun q hq => hno q (by simp [hq])) hp
    | raiseExc => exact absurd rfl (hno .raiseExc (by simp))

/-- Witness for the amended C10: a praw post with a missing author gets
the `"[deleted]"` sentinel, a praw post yielded from items has a
non-null author, and a public item without an author yields a post whose
author is absent. -/
theorem c10_author_sentinel_witness :
    (mkPrawPost "vosfinances" { exPraw50 with author := none }).author
        = some "[deleted]"
    ∧ (mkPrawPost "vosfinances" exPraw50).author ≠ none := by
  constructor
  · exact (c10_author_sentinel_amended "vosfinances"
      { exPraw50 with author := none } exItemDup { id := "c" }).1
  · refine (c10_author_sentinel_amended "vosfinances" exPraw50 exItemDup
      { id := "c" }).2.2.2 10 [] 100 [PrawEvent.item exPraw50] _ (by decide) ?_
    rw [show prawGo 10 "vosfinances" [] 100 [PrawEvent.item exPraw50]
      = [mkPrawPost "vosfinances" exPraw50] from rfl]
    simp

/-- Counterexample for C10 as stated: the public transport constructs a
post from an item without an `author` key; the produced record's author
field is absent (`None`), not the `"[deleted]"` sentinel. -/
theorem c10_counterexample :
    (fetch_subreddit_posts_public 10 "vosfinances"
        [PageResp.page [exItem50] none] 100).1
      = [mkPublicPost "vosfinances" exItem50]
    ∧ (mkPublicPost "vosfinances" exItem50).author = none :=
  ⟨rfl, rfl⟩

/-! ## Client state stability

After the first `get_reddit_client` call of a run the module global is
in a fixed point: further calls do not change it.  This drives both the
fallback-equivalence and the incremental-correctness proofs. -/

/-- A value of the module global that one more `get_reddit_client` call
leaves unchanged. -/
def StableSt (w : World) (st : Option Nat) : Prop :=
  (get_reddit_client w st).2 = st

theorem stable_after_get (w : World) (st : Option Nat) :
    StableSt w (get_reddit_client w st).2 := by
  unfold StableSt get_reddit_client getRedditClientCore
  cases hb : (w.enabled && w.prawAvail) with
  | false => simp [hb]
  | true =>
    cases st with
    | some c => simp [hb]
    | none => cases w.attempt <;> simp [hb]

/-- From a stable state, a `fetch_top_comment` call (either dispatch
target) returns the state unchanged. -/
theorem fetch_top_comment_state (w : World) (st : Option Nat)
    (pid : Option String) (sub : String) (h : StableSt w st) :
    (fetch_top_comment w st pid sub).2 = st := by
  unfold fetch_top_comment
  by_cases hd : (w.enabled && w.prawAvail) = true
  · rw [if_pos hd]
    cases hc : (get_reddit_client w st).1 with
    | none =>
      simp only [fetch_top_comment_praw, hc]
      exact h
    | some cl =>
      simp only [fetch_top_comment_praw, hc]
      cases w.prawComments pid sub with
      | raiseExc => exact h
      | ok cs => cases cs <;> exact h
  · rw [if_neg hd]

/-- The state left behind by a `fetch_subreddit_posts` call is stable. -/
theorem fetch_state_stable (w : World) (st : Option Nat) (sub tf : String)
    (limit : Nat) : StableSt w (fetch_subreddit_posts w st sub tf limit).2 := by
  unfold fetch_subreddit_posts
  by_cases hd : (w.enabled && w.prawAvail) = true
  · rw [if_pos hd]
    cases hc : (get_reddit_client w st).1 with
    | none =>
      simp only [fetch_subreddit_posts_praw, hc]
      exact stable_after_get w st
    | some cl =>
      simp only [fetch_subreddit_posts_praw, hc]
      exact stable_after_get w st
  · rw [if_neg hd]
    have hb : (w.enabled && w.prawAvail) = false := by
      simpa using hd
    unfold StableSt get_reddit_client getRedditClientCore
    simp [hb]

/-- From a stable state, the `fetch_all_posts` per-community loop
returns the state unchanged. -/
theorem allLoop_stable (w : World) (wc : Bool) (sub : String) :
    ∀ (ps : List Post) (st : Option Nat) (l : List Post) (st2 : Option Nat),
      StableSt w st → allLoop w wc sub st ps = .ok (l, st2) → st2 = st := by
  intro ps
  induction ps with
  | nil =>
    intro st l st2 hst h
    simp only [allLoop] at h
    cases h
    rfl
  | cons q rest ih =>
    intro st l st2 hst h
    rw [allLoop] at h
    by_cases hwc : wc = true
    · rw [if_pos hwc] at h
      split at h
      · simp at h
      · rename_i c st1 heq
        have hst1 : st1 = st := by
          have h2 := fetch_top_comment_state w st q.id sub hst
          rw [heq] at h2
          exact h2
        split at h
        · simp at h
        · rename_i ps2 st3 heq2
          simp only [Except.ok.injEq, Prod.mk.injEq] at h
          obtain ⟨-, h2⟩ := h
          rw [hst1] at heq2
          exact h2 ▸ ih st ps2 st3 hst heq2
    · rw [if_neg hwc] at h
      split at h
      · simp at h
      · rename_i ps2 st3 heq2
        simp only [Except.ok.injEq, Prod.mk.injEq] at h
        obtain ⟨-, h2⟩ := h
        exact h2 ▸ ih st ps2 st3 hst heq2

/-- From a stable state, the `fetch_new_posts` per-community loop
returns the state unchanged. -/
theorem newLoop_stable (w : World) (wc : Bool) (sub : String) (cutoff : Int) :
    ∀ (ps : List Post) (st : Option Nat) (l : List Post) (st2 : Option Nat),
      StableSt w st → newLoop w wc sub cutoff st ps = .ok (l, st2) → st2 = st := by
  intro ps
  induction ps with
  | nil =>
    intro st l st2 hst h
    simp only [newLoop] at h
    cases h
    rfl
  | cons q rest ih =>
    intro st l st2 hst h
    rw [newLoop] at h
    by_cases hcut : cutoff ≤ q.created_utc
    · rw [if_pos hcut] at h
      by_cases hwc : wc = true
      · rw [if_pos hwc] at h
        split at h
        · simp at h
        · rename_i c st1 heq
          have hst1 : st1 = st := by
            have h2 := fetch_top_comment_state w st q.id sub hst
            rw [heq] at h2
            exact h2
          split at h
          · simp at h
          · rename_i ps2 st3 heq2
            simp only [Except.ok.injEq, Prod.mk.injEq] at h
            obtain ⟨-, h2⟩ := h
            rw [hst1] at heq2
            exact h2 ▸ ih st ps2 st3 hst heq2
      · rw [if_neg hwc] at h
        split at h
        · simp at h
        · rename_i ps2 st3 heq2
          simp only [Except.ok.injEq, Prod.mk.injEq] at h
          obtain ⟨-, h2⟩ := h
          exact h2 ▸ ih st ps2 st3 hst heq2
    · rw [if_neg hcut] at h
      exact ih st l st2 hst h

/-! ## Incremental harvest -/

/-- Forget the enrichment of a post: harvests are compared modulo the
comment fields the enricher may merge in. -/
def stripComment (p : Post) : Post := { p with comment := none }

theorem stripComment_enrich (p : Post) (c : Option Comment) :
    stripComment (enrich p c) = stripComment p := by cases c <;> rfl

theorem stripComment_eq_self (p : Post) (h : p.comment = none) :
    stripComment p = p := by
  cases p with
  | mk pid subr ttl self sc nc cu ca u au uf com =>
    cases com
    · rfl
    · simp at h

theorem map_stripComment_id (l : List Post) (h : ∀ p ∈ l, p.comment = none) :
    l.map stripComment = l := by
  induction l with
  | nil => rfl
  | cons p rest ih =>
    rw [List.map_cons, stripComment_eq_self p (h p (by simp)),
      ih (fun q hq => h q (by simp [hq]))]

/-- From a stable state, the per-community incremental loop keeps
exactly the posts at or above the cutoff, in order (modulo the comment
fields merged in by enrichment). -/
theorem newLoop_filter (w : World) (wc : Bool) (sub : String) (cutoff : Int) :
    ∀ (ps : List Post) (st : Option Nat) (l : List Post) (st2 : Option Nat),
      StableSt w st → newLoop w wc sub cutoff st ps = .ok (l, st2) →
      l.map stripComment
        = (ps.filter (fun p => decide (cutoff ≤ p.created_utc))).map stripComment := by
  intro ps
  induction ps with
  | nil =>
    intro st l st2 hst h
    simp only [newLoop] at h
    cases h
    rfl
  | cons q rest ih =>
    intro st l st2 hst h
    rw [newLoop] at h
    by_cases hcut : cutoff ≤ q.created_utc
    · rw [if_pos hcut] at h
      by_cases hwc : wc = true
      · rw [if_pos hwc] at h
        split at h
        · simp at h
        · rename_i c st1 heq
          have hst1 : st1 = st := by
            have h2 := fetch_top_comment_state w st q.id sub hst
            rw [heq] at h2
            exact h2
          split at h
          · simp at h
          · rename_i ps2 st3 heq2
            simp only [Except.ok.injEq, Prod.mk.injEq] at h
            obtain ⟨h1, -⟩ := h
            subst h1
            rw [hst1] at heq2
            have hrec := ih st ps2 st3 hst heq2
            simp [List.filter_cons, hcut, stripComment_enrich, hrec]
      · rw [if_neg hwc] at h
        split at h
        · simp at h
        · rename_i ps2 st3 heq2
          simp only [Except.ok.injEq, Prod.mk.injEq] at h
          obtain ⟨h1, -⟩ := h
          subst h1
          have hrec := ih st ps2 st3 hst heq2
          simp [List.filter_cons, hcut, hrec]
    · rw [if_neg hcut] at h
      have hrec := ih st l st2 hst h
      simp [List.filter_cons, hcut, hrec]

/-- Over the whole community list: a successful incremental run returns
exactly the at-or-above-cutoff subset of the posts the same run fetches,
preserving community order and ranking order. -/
theorem newSubsLoop_filter (w : World) (wc : Bool) (cutoff : Int) :
    ∀ (subsL : List String) (st : Option Nat) (l : List Post) (st2 : Option Nat),
      newSubsLoop w wc cutoff st subsL = .ok (l, st2) →
      l.map stripComment
        = ((fetchedPosts w "day" 100 st subsL).1).filter
            (fun p => decide (cutoff ≤ p.created_utc)) := by
  intro subsL
  induction subsL with
  | nil =>
    intro st l st2 h
    simp only [newSubsLoop] at h
    cases h
    simp [fetchedPosts]
  | cons sub rest ih =>
    intro st l st2 h
    simp only [newSubsLoop] at h
    split at h
    · simp at h
    · rename_i kept st3 heq
      split at h
      · simp at h
      · rename_i more st4 heq2
        simp only [Except.ok.injEq, Prod.mk.injEq] at h
        obtain ⟨h1, -⟩ := h
        subst h1
        have hstable := fetch_state_stable w st sub "day" 100
        have hkept := newLoop_filter w wc sub cutoff _ _ _ _ hstable heq
        have hst3 : st3 = (fetch_subreddit_posts w st sub "day" 100).2 :=
          newLoop_stable w wc sub cutoff _ _ _ _ hstable heq
        rw [hst3] at heq2
        have hrec := ih _ _ _ heq2
        simp only [fetchedPosts, List.map_append, List.filter_append]
        rw [hrec, hkept]
        congr 1
        rw [map_stripComment_id]
        intro p hp
        exact (fetch_subreddit_posts_inv w st sub "day" 100 p
          (List.mem_filter.mp hp).1).2.2

/-- C5: incremental correctness.  Whenever `fetch_new_posts` returns
normally, its result is exactly the subset of the posts fetched by the
same run (day window, limit 100, community order preserved, ranking
order preserved) whose creation time is at or after
`now - since_hours * 3600` — compared modulo the comment fields merged
in by enrichment. -/
theorem c5_harvest_recent_filter (w : World) (now sinceHours : Int)
    (wc : Bool) (st : Option Nat) (l : List Post)
    (h : fetch_new_posts w now sinceHours wc st = .ok l) :
    l.map stripComment
      = ((fetchedPosts w "day" 100 st w.subs).1).filter
          (fun p => decide (now - sinceHours * 3600 ≤ p.created_utc)) := by
  unfold fetch_new_posts at h
  split at h
  · simp at h
  · rename_i l2 st2 heq
    simp only [Except.ok.injEq] at h
    subst h
    exact newSubsLoop_filter w wc _ w.subs st l2 st2 heq

/-- Witness for C5: with a stale (t=100) and a fresh (t=5000) post in
the day window and cutoff 6000 - 3600 = 2400, the incremental harvest
returns exactly the fresh post. -/
theorem c5_harvest_recent_filter_witness :
    ([mkPublicPost "vosfinances" exItemNew]).map stripComment
      = ((fetchedPosts exWorldRecent "day" 100 none exWorldRecent.subs).1).filter
          (fun p => decide ((6000 : Int) - 1 * 3600 ≤ p.created_utc)) :=
  c5_harvest_recent_filter exWorldRecent 6000 1 true none
    [mkPublicPost "vosfinances" exItemNew] rfl

/-! ## Fallback equivalence -/

theorem constructFails_get (w : World) (h : w.attempt = .constructFails) :
    get_reddit_client w none = (none, none) := by
  unfold get_reddit_client getRedditClientCore
  rw [h]
  cases hb : (w.enabled && w.prawAvail) <;> simp [hb]

theorem constructFails_fetch (w : World) (h : w.attempt = .constructFails)
    (sub tf : String) (limit : Nat) :
    fetch_subreddit_posts w none sub tf limit
      = ((fetch_subreddit_posts_public w.minScore sub (w.pubPages sub tf) limit).1,
         none) := by
  unfold fetch_subreddit_posts
  by_cases hd : (w.enabled && w.prawAvail) = true
  · rw [if_pos hd]
    simp only [fetch_subreddit_posts_praw, constructFails_get w h]
  · rw [if_neg hd]

theorem constructFails_comment (w : World) (h : w.attempt = .constructFails)
    (pid : Option String) (sub : String) :
    fetch_top_comment w none pid sub
      = (fetch_top_comment_public (w.pubComments pid sub), none) := by
  unfold fetch_top_comment
  by_cases hd : (w.enabled && w.prawAvail) = true
  · rw [if_pos hd]
    simp only [fetch_top_comment_praw, constructFails_get w h]
  · rw [if_neg hd]

theorem pubOnly_fetch (w : World) (sub tf : String) (limit : Nat)
    (st : Option Nat) :
    fetch_subreddit_posts (pubOnly w) st sub tf limit
      = ((fetch_subreddit_posts_public w.minScore sub (w.pubPages sub tf) limit).1,
         st) := by
  simp [fetch_subreddit_posts, pubOnly]

theorem pubOnly_comment (w : World) (pid : Option String) (sub : String)
    (st : Option Nat) :
    fetch_top_comment (pubOnly w) st pid sub
      = (fetch_top_comment_public (w.pubComments pid sub), st) := by
  simp [fetch_top_comment, pubOnly]

theorem constructFails_allLoop (w : World) (h : w.attempt = .constructFails)
    (wc : Bool) (sub : String) :
    ∀ ps, allLoop w wc sub none ps = allLoop (pubOnly w) wc sub none ps := by
  intro ps
  induction ps with
  | nil => rfl
  | cons q rest ih =>
    rw [allLoop, allLoop]
    by_cases hwc : wc = true
    · rw [if_pos hwc, if_pos hwc,
        constructFails_comment w h q.id sub, pubOnly_comment w q.id sub none]
      cases fetch_top_comment_public (w.pubComments q.id sub) with
      | error e => rfl
      | ok c => simp only [ih]
    · rw [if_neg hwc, if_neg hwc, ih]

theorem pubOnly_stable_none (w : World) : StableSt (pubOnly w) none := by
  simp [StableSt, get_reddit_client, getRedditClientCore, pubOnly]

theorem constructFails_subsLoop (w : World) (h : w.attempt = .constructFails)
    (tf : String) (wc : Bool) (limit : Nat) :
    ∀ subsL, subsLoop w tf wc limit none subsL
      = subsLoop (pubOnly w) tf wc limit none subsL := by
  intro subsL
  induction subsL with
  | nil => rfl
  | cons sub rest ih =>
    simp only [subsLoop]
    rw [constructFails_fetch w h sub tf limit, pubOnly_fetch w sub tf limit none,
      constructFails_allLoop w h wc sub]
    cases hx : allLoop (pubOnly w) wc sub none
        (fetch_subreddit_posts_public w.minScore sub (w.pubPages sub tf) limit).1 with
    | error e => rfl
    | ok pr =>
      obtain ⟨ps2, st3⟩ := pr
      have hst3 : st3 = none :=
        allLoop_stable (pubOnly w) wc sub _ none ps2 st3 (pubOnly_stable_none w) hx
      rw [hst3]
      simp only [ih]

/-- C2 (amended): if the client CONSTRUCTION raises on every attempt
(`get_reddit_client` yields no client on every call), then `harvest_all`
over the configured communities returns exactly the same ordered list —
including comment enrichment and error behaviour — as the run with the
authenticated path disabled, i.e. the public transport alone against the
same responses.  (If instead a client is obtained and the subsequent
authenticated requests raise, posts still fall back but the
authenticated top-comment fetch returns absent rather than delegating,
so enriched outputs can differ: see the counterexample.) -/
theorem c2_fallback_equiv_amended (w : World) (wc : Bool) (limit : Nat)
    (h : w.attempt = .constructFails) :
    fetch_all_posts w wc limit none = fetch_all_posts (pubOnly w) wc limit none := by
  unfold fetch_all_posts
  rw [constructFails_subsLoop w h TIME_FILTER wc limit w.subs]
  rfl

/-- Witness for the amended C2: in a world with failing construction and
live public endpoints, both runs agree. -/
theorem c2_fallback_equiv_amended_witness :
    fetch_all_posts exWorldCF true 100 none
      = fetch_all_posts (pubOnly exWorldCF) true 100 none :=
  c2_fallback_equiv_amended exWorldCF true 100 rfl

/-- Counterexample for C2 as stated: when the client is created and
authenticated successfully but every authenticated request raises
immediately, `fetch_all_posts` yields the same posts as the public
transport but WITHOUT comment enrichment (the praw top-comment fetch
returns `None` on error instead of delegating), so the two ordered
lists differ. -/
theorem c2_counterexample :
    fetch_all_posts exWorldAuthRaises true 100 none
      = .ok [mkPublicPost "vosfinances" exItem50]
    ∧ fetch_all_posts (pubOnly exWorldAuthRaises) true 100 none
      = .ok [enrich (mkPublicPost "vosfinances" exItem50) (some exComment)]
    ∧ fetch_all_posts exWorldAuthRaises true 100 none
      ≠ fetch_all_posts (pubOnly exWorldAuthRaises) true 100 none := by
  refine ⟨rfl, rfl, ?_⟩
  intro hEq
  rw [show fetch_all_posts exWorldAuthRaises true 100 none
      = .ok [mkPublicPost "vosfinances" exItem50] from rfl] at hEq
  rw [show fetch_all_posts (pubOnly exWorldAuthRaises) true 100 none
      = .ok [enrich (mkPublicPost "vosfinances" exItem50) (some exComment)] from rfl] at hEq
  simp [enrich, mkPublicPost] at hEq

/-! ## Malformed comment responses raise -/

/-- C4 is violated by the code: a wrongly-shaped (dict) JSON body on the
comment endpoint makes `fetch_top_comment_public` raise an uncaught
`KeyError` at `data[1]` (only `requests.RequestException` is caught by
the source), and that exception propagates through `fetch_all_posts`
and `fetch_new_posts` to the caller instead of degrading to an absent
comment. -/
theorem c4_comment_shape_raises :
    fetch_top_comment_public (.ok exRateLimitBody) = .error PyErr.keyError
    ∧ fetch_all_posts exWorldBadComment true 100 none = .error PyErr.keyError
    ∧ fetch_new_posts exWorldBadComment 0 0 true none = .error PyErr.keyError :=
  ⟨rfl, rfl, rfl⟩
